import Mathlib

/-!
# Verification of the telemetry ingestion pipeline

Shallow embedding of the core of the `python_desktop` monitoring dashboard:

* the binary wire-frame codec (`MQTTWorker.on_message` in `mqtthandler.py`
  performs the u16 unpack; `TimeViewFeature.split_and_store_values` in
  `features/time_view.py` performs the header checks and parse; the encoder
  is `MQTTPublisher.publish_message` in `publish6.py`);
* the MQTT worker connection lifecycle (`mqtthandler.py`);
* the time-view ring-buffer / recording state machine
  (`features/time_view.py`) together with the persistence repository
  (`database.py`).

Machine integers are modelled as `Nat` with explicit bounds where the Python
`struct` module enforces them; `float` quantities that the code only ever
uses at exactly representable values (`window_size`, `data_rate`) are
modelled as `ℚ`.
-/

/-! ## Frame codec -/

/-- Little-endian u16 unpacking of a byte string, as
`struct.unpack(f"{len(payload)//2}H", payload)` does in
`MQTTWorker.on_message` (any trailing odd byte cannot occur there because
the caller has already checked evenness). -/
def bytesToWords : List Nat → List Nat
  | b0 :: b1 :: rest => (b0 + 256 * b1) :: bytesToWords rest
  | _ => []

/-- Little-endian u16 packing, as `struct.pack(f"{n}H", *values)` does in
`MQTTPublisher.publish_message`. -/
def wordsToBytes : List Nat → List Nat
  | w :: rest => (w % 256) :: (w / 256) :: wordsToBytes rest
  | [] => []

/-- A decoded wire frame: the ten-word header parsed by
`TimeViewFeature.split_and_store_values` plus the remaining payload words. -/
structure Frame where
  frameIndex : Nat
  channelCount : Nat
  samplingRate : Nat
  samplingSizeBits : Nat
  messageFrequency : Nat
  reserved : List Nat
  payload : List Nat
  deriving Repr, DecidableEq

/-- The decode failure modes of the ingestion path.  `oddPayload` is the
`ValueError` raised in `MQTTWorker.on_message`; `tooShort` is the
`len(values) < 10` early return, `channelMisalignment` the
`len(plot_values) % number_of_channels != 0` early return, and
`zeroChannels` the `ZeroDivisionError` swallowed by the surrounding
`except Exception` in `TimeViewFeature.split_and_store_values`. -/
inductive DecodeError where
  | oddPayload
  | tooShort
  | zeroChannels
  | channelMisalignment
  deriving Repr, DecidableEq

/-- Header parse and validation of a u16 word list, following
`TimeViewFeature.split_and_store_values` lines 452-471:
fewer than 10 words is rejected, `frame_index = values[0] + values[1]*65535`,
`number_of_channels = values[2]`, and the post-header payload must have
length divisible by `number_of_channels` (a zero channel count makes the
Python `%` raise `ZeroDivisionError`, caught by the enclosing handler). -/
def decodeWords (values : List Nat) : Except DecodeError Frame :=
  if values.length < 10 then .error .tooShort
  else
    let nch := values.getD 2 0
    let plotValues := values.drop 10
    if nch = 0 then .error .zeroChannels
    else if plotValues.length % nch ≠ 0 then .error .channelMisalignment
    else .ok
      { frameIndex := values.getD 0 0 + values.getD 1 0 * 65535
        channelCount := nch
        samplingRate := values.getD 3 0
        samplingSizeBits := values.getD 4 0
        messageFrequency := values.getD 5 0
        reserved := (values.drop 6).take 4
        payload := plotValues }

/-- Full decode of a byte buffer: the evenness check of
`MQTTWorker.on_message` line 130 followed by the u16 unpack and the header
validation of `split_and_store_values`. -/
def decode (bytes : List Nat) : Except DecodeError Frame :=
  if bytes.length % 2 ≠ 0 then .error .oddPayload
  else decodeWords (bytesToWords bytes)

/-- The ten-word header written by `MQTTPublisher.publish_message`
(`publish6.py` lines 55-65): the frame index split base 65535, then
channel count, sampling rate, sampling size, message frequency, and four
reserved slots, followed by the interleaved payload. -/
def encodeWords (f : Frame) : List Nat :=
  [f.frameIndex % 65535, f.frameIndex / 65535, f.channelCount,
   f.samplingRate, f.samplingSizeBits, f.messageFrequency]
    ++ f.reserved ++ f.payload

/-- Encode a frame to wire bytes.  `struct.pack("H", v)` raises for any
value outside `0..65535`, so encoding fails unless every word fits u16. -/
def encode (f : Frame) : Option (List Nat) :=
  if (encodeWords f).all (· < 65536) then some (wordsToBytes (encodeWords f))
  else none

/-! ## MQTT worker: message handling (`MQTTWorker.on_message`) -/

/-- The slice of the database that `Database.update_tag_value` consults:
whether the project document exists and which tag names exist for it
(`database.py` lines 254-267).  `update_tag_value` never writes. -/
structure MqttDb where
  projectExists : Bool
  tags : List String
  deriving Repr, DecidableEq

/-- `Database.update_tag_value` succeeds exactly when the project is found
and the tag is found; it stores nothing. -/
def update_tag_value (db : MqttDb) (tagName : String) : Bool :=
  db.projectExists && db.tags.contains tagName

/-- Events emitted by `MQTTWorker.on_message`: the `data_received` signal
carrying `(tag_name, values)`, or the `error_occurred` signal. -/
inductive MsgEvent where
  | dataReceived (tag : String) (values : List Nat)
  | errorOccurred
  deriving Repr, DecidableEq

/-- `MQTTWorker.on_message` (`mqtthandler.py` lines 123-154): raise (and
catch) a `ValueError` for an odd-length payload, unpack u16 words, reject
an empty value list, then hand the raw word list to
`Database.update_tag_value`; emit `data_received(topic, values)` on
success, `error_occurred` otherwise.  Every failure path is caught, so
handling one message never affects any other. -/
def on_message (db : MqttDb) (topic : String) (payload : List Nat) :
    List MsgEvent :=
  if payload.length % 2 ≠ 0 then [.errorOccurred]
  else
    let values := bytesToWords payload
    if values.isEmpty then [.errorOccurred]
    else if update_tag_value db topic then [.dataReceived topic values]
    else [.errorOccurred]

/-- Sequential handling of a batch of incoming messages; `on_message`
keeps no state between messages, so the events are just concatenated. -/
def processMessages (db : MqttDb) : List (String × List Nat) → List MsgEvent
  | [] => []
  | (topic, payload) :: rest => on_message db topic payload ++ processMessages db rest

/-! ## MQTT worker: connection lifecycle (`MQTTWorker` start/stop/retry) -/

/-- Lifecycle events emitted by the worker. -/
inductive ConnEvent where
  | connected
  | connectionFailed
  | stoppedEvent
  deriving Repr, DecidableEq

/-- The mutable state of `MQTTWorker` relevant to the connection
lifecycle, plus two bookkeeping fields: `timerPending` records whether a
`QTimer.singleShot` retry callback is scheduled, and `connectCalls` counts
invocations of `self.client.connect`. -/
structure WorkerState where
  running : Bool
  retryCount : Nat
  subscribedTopics : List String
  pendingSubscriptions : List String
  timerPending : Bool
  connectCalls : Nat
  events : List ConnEvent
  deriving Repr, DecidableEq

/-- Fresh worker as built by `MQTTWorker.__init__`. -/
def WorkerState.init : WorkerState :=
  { running := false, retryCount := 0, subscribedTopics := []
    pendingSubscriptions := [], timerPending := false, connectCalls := 0
    events := [] }

/-- `MQTTWorker.attempt_connection` (`mqtthandler.py` lines 60-81): if the
retry budget is exhausted, emit `connection_failed` and give up; otherwise
call `client.connect` (modelled by the `connectOk` oracle and the
`connectCalls` counter).  Success resets `retry_count` and emits
`connected`; failure increments `retry_count` and schedules another
attempt via `QTimer.singleShot`.  Note the function never consults
`self.running`. -/
def attempt_connection (connectOk : Bool) (st : WorkerState) : WorkerState :=
  if st.retryCount ≥ 5 then
    { st with events := st.events ++ [.connectionFailed] }
  else if connectOk then
    { st with connectCalls := st.connectCalls + 1, retryCount := 0
              events := st.events ++ [.connected] }
  else
    { st with connectCalls := st.connectCalls + 1
              retryCount := st.retryCount + 1, timerPending := true }

/-- `MQTTWorker.start` followed by `connect_with_retry`
(`mqtthandler.py` lines 35-58): only acts when not already running; sets
`running`, zeroes the retry counter and makes the first attempt. -/
def workerStart (connectOk : Bool) (st : WorkerState) : WorkerState :=
  if st.running then st
  else attempt_connection connectOk { st with running := true, retryCount := 0 }

/-- `MQTTWorker.stop` (`mqtthandler.py` lines 43-52): when running, clear
both topic sets, reset the retry counter and emit `stopped`.  The pending
`QTimer.singleShot` retry callback is *not* cancelled. -/
def workerStop (st : WorkerState) : WorkerState :=
  if st.running then
    { st with running := false, subscribedTopics := []
              pendingSubscriptions := [], retryCount := 0
              events := st.events ++ [.stoppedEvent] }
  else st

/-- A scheduled `QTimer.singleShot` retry callback firing: Qt delivers it
regardless of the worker's `running` flag, and the callback is
`attempt_connection`. -/
def timerFire (connectOk : Bool) (st : WorkerState) : WorkerState :=
  if st.timerPending then attempt_connection connectOk { st with timerPending := false }
  else st

/-! ## Ring buffers (`collections.deque` with `maxlen`) -/

/-- A bounded deque as used for `time_view_buffers`: `cap` is the `maxlen`
and `data` the current contents, oldest first. -/
structure RingBuffer (α : Type) where
  cap : Nat
  data : List α
  deriving Repr, DecidableEq

/-- `deque.append(x)` with a `maxlen`: the new element goes to the back
and, when full, the oldest element is discarded from the front.  In list
form the result is the last `cap` elements of `data ++ [x]`. -/
def RingBuffer.push {α : Type} (b : RingBuffer α) (x : α) : RingBuffer α :=
  ⟨b.cap, (b.data ++ [x]).drop (b.data.length + 1 - b.cap)⟩

/-- `deque(iterable, maxlen=cap)`: keeps the last `cap` elements of the
iterable (this is how `adjust_buffer_size` reallocates). -/
def RingBuffer.ofList {α : Type} (cap : Nat) (l : List α) : RingBuffer α :=
  ⟨cap, l.drop (l.length - cap)⟩

/-- `deque(maxlen=cap)`: a fresh empty buffer. -/
def RingBuffer.empty {α : Type} (cap : Nat) : RingBuffer α := ⟨cap, []⟩

/-! ## Time view feature (`features/time_view.py`) -/

/-- Python `int()` truncation toward zero; the code only applies it to
`data_rate * window_size` with exactly representable nonnegative
operands, so `ℚ` truncation is faithful. -/
def pyInt (q : ℚ) : Nat := (q.num / (q.den : Int)).toNat

/-- One archived record of `Database.save_timeview_message`
(`database.py` lines 318-345), restricted to the fields the claims
concern.  All filenames written by the app are `"data" ++ digits`
(`start_saving` line 336), and `get_distinct_filenames` /
`get_next_filename_counter` read back exactly that numeric suffix, so a
filename is modelled by its suffix. -/
structure SavedRecord where
  filenameSuffix : Nat
  frameIndex : Nat
  numberOfChannels : Nat
  message : List Nat
  deriving Repr, DecidableEq

/-- The `timeview_messages` collection. -/
structure TvDb where
  records : List SavedRecord
  deriving Repr, DecidableEq

/-- `Database.get_distinct_filenames` restricted to the numeric suffixes
(duplicates are irrelevant to the maximum that the caller takes). -/
def TvDb.filenameSuffixes (db : TvDb) : List Nat :=
  db.records.map (·.filenameSuffix)

/-- `TimeViewFeature.get_next_filename_counter` (`time_view.py` lines
42-50): one plus the greatest numeric suffix among the repository's
filenames, starting the maximum at 0. -/
def get_next_filename_counter (db : TvDb) : Nat :=
  db.filenameSuffixes.foldl max 0 + 1

/-- Console/dialog level outcomes of the time-view operations. -/
inductive TvEvent where
  | droppedShort
  | droppedMisaligned
  | errorCaught
  | invalidTag
  | startedSaving
  | stoppedSaving
  | savedFrame
  | saveFailed
  deriving Repr, DecidableEq

/-- The mutable state of `TimeViewFeature` relevant to buffering and
recording.  `axesInitialized` models `self.axes` being nonempty;
`startedAt` models `save_start_time`.  The per-sample timestamp deque is
not modelled (no claim concerns it). -/
structure TimeViewState where
  windowSize : ℚ
  dataRate : ℚ
  bufferSize : Nat
  numChannels : Nat
  buffers : List (RingBuffer ℚ)
  axesInitialized : Bool
  isSaving : Bool
  frameIndex : Nat
  filenameCounter : Nat
  startedAt : Option Nat
  deriving Repr, DecidableEq

/-- `TimeViewFeature.__init__` / `setup_time_view_plot`: window 1.0 s,
fixed `data_rate = 4096.0`, buffer size `int(data_rate * window_size)`,
no channels or axes yet, not saving, and the filename counter recomputed
from the repository's filenames. -/
def initTimeView (db : TvDb) : TimeViewState :=
  { windowSize := 1, dataRate := 4096, bufferSize := pyInt (4096 * 1)
    numChannels := 0, buffers := [], axesInitialized := false
    isSaving := false, frameIndex := 0
    filenameCounter := get_next_filename_counter db, startedAt := none }

/-- `TimeViewFeature.initialize_plot` (`time_view.py` lines 415-448):
no-op when the channel count is unchanged and axes exist; otherwise
recompute `buffer_size = int(data_rate * window_size)` and allocate one
fresh deque of that `maxlen` per channel. -/
def initialize_plot (s : TimeViewState) (numChannels : Nat) : TimeViewState :=
  if numChannels = s.numChannels ∧ s.axesInitialized then s
  else
    let bs := pyInt (s.dataRate * s.windowSize)
    { s with numChannels := numChannels, bufferSize := bs
             buffers := List.replicate numChannels (RingBuffer.empty bs)
             axesInitialized := true }

/-- The de-interleaving append loop of `split_and_store_values` lines
480-490: for each block of `nch` consecutive payload values, append the
`j`-th value of the block to the `j`-th channel buffer. -/
def appendInterleaved (bufs : List (RingBuffer ℚ)) (nch : Nat)
    (plot : List ℚ) : List (RingBuffer ℚ) :=
  (List.range (plot.length / nch)).foldl
    (fun bs k => List.zipWith RingBuffer.push bs ((plot.drop (k * nch)).take nch))
    bufs

/-- `TimeViewFeature.split_and_store_values` (`time_view.py` lines
450-530): header checks as in `decodeWords`, lazy (re)initialisation of
the plot buffers, the de-interleaving append, and — while saving — one
`save_timeview_message` call whose success increments `frame_index` and
whose failure stops the session.  The repository-write outcome is the
`dbOk` oracle (`database.py` can fail on a missing project or a thrown
insert). -/
def split_and_store_values (s : TimeViewState) (db : TvDb) (dbOk : Bool)
    (values : List Nat) : TimeViewState × TvDb × List TvEvent :=
  if values.length < 10 then (s, db, [.droppedShort])
  else
    let frameIdx := values.getD 0 0 + values.getD 1 0 * 65535
    let nch := values.getD 2 0
    let plotValues := values.drop 10
    if nch = 0 then (s, db, [.errorCaught])
    else if plotValues.length % nch ≠ 0 then (s, db, [.droppedMisaligned])
    else
      let s1 := if nch ≠ s.numChannels ∨ s.axesInitialized = false
        then initialize_plot s nch else s
      let s2 := { s1 with
        buffers := appendInterleaved s1.buffers nch (plotValues.map (Nat.cast)) }
      if s2.isSaving then
        if dbOk then
          ({ s2 with frameIndex := s2.frameIndex + 1 },
           { records := db.records ++
              [{ filenameSuffix := s2.filenameCounter, frameIndex := frameIdx
                 numberOfChannels := nch, message := plotValues }] },
           [.savedFrame])
        else
          ({ s2 with isSaving := false }, db, [.saveFailed])
      else (s2, db, [])

/-- `TimeViewFeature.start_saving` (`time_view.py` lines 330-350): reject
only an invalid tag; otherwise set `is_saving`, reset `frame_index` to 0
and record the start time.  There is no already-saving guard. -/
def start_saving (s : TimeViewState) (tagValid : Bool) (now : Nat) :
    TimeViewState × List TvEvent :=
  if !tagValid then (s, [.invalidTag])
  else ({ s with isSaving := true, frameIndex := 0, startedAt := some now },
        [.startedSaving])

/-- `TimeViewFeature.stop_saving` (`time_view.py` lines 352-376): no-op
unless saving; otherwise clear `is_saving`, increment the in-memory
filename counter and clear the start time. -/
def stop_saving (s : TimeViewState) : TimeViewState × List TvEvent :=
  if !s.isSaving then (s, [])
  else ({ s with isSaving := false, filenameCounter := s.filenameCounter + 1
                 startedAt := none },
        [.stoppedSaving])

/-- `TimeViewFeature.adjust_buffer_size` (`time_view.py` lines 532-543):
recompute `int(data_rate * window_size)`; when it changed, rebuild every
channel buffer with `deque(buf, maxlen=new)`, which keeps the most recent
elements. -/
def adjust_buffer_size (s : TimeViewState) : TimeViewState :=
  let nbs := pyInt (s.dataRate * s.windowSize)
  if nbs ≠ s.bufferSize then
    { s with bufferSize := nbs
             buffers := s.buffers.map (fun b => RingBuffer.ofList nbs b.data) }
  else s

/-- The external window-size change to which `adjust_buffer_size`
responds. -/
def setWindow (s : TimeViewState) (w : ℚ) : TimeViewState :=
  { s with windowSize := w }

/-- Feeding a list of frames through `split_and_store_values` with every
repository write succeeding. -/
def saveFrames (frames : List (List Nat)) (p : TimeViewState × TvDb) :
    TimeViewState × TvDb :=
  frames.foldl
    (fun q v =>
      ((split_and_store_values q.1 q.2 true v).1,
       (split_and_store_values q.1 q.2 true v).2.1))
    p

/-- One complete recording session: `start_saving`, then each frame
through `split_and_store_values` with every repository write succeeding,
then `stop_saving`. -/
def runSession (s : TimeViewState) (db : TvDb) (frames : List (List Nat)) :
    TimeViewState × TvDb :=
  let p := saveFrames frames ((start_saving s true 0).1, db)
  ((stop_saving p.1).1, p.2)

/-- A word list that passes every header check of
`split_and_store_values` and therefore reaches the buffer-append and
persistence stages. -/
def ValidFrameWords (values : List Nat) : Prop :=
  10 ≤ values.length ∧ values.getD 2 0 ≠ 0 ∧
    (values.length - 10) % values.getD 2 0 = 0

instance (values : List Nat) : Decidable (ValidFrameWords values) :=
  inferInstanceAs (Decidable (_ ∧ _ ∧ _))

/-- Decidable equality for `Except` results (not provided by core). -/
instance decEqExcept {ε α : Type} [DecidableEq ε] [DecidableEq α] :
    DecidableEq (Except ε α) := fun x y =>
  match x, y with
  | .error a, .error b =>
      if h : a = b then isTrue (by rw [h])
      else isFalse (by intro hc; cases hc; exact h rfl)
  | .ok a, .ok b =>
      if h : a = b then isTrue (by rw [h])
      else isFalse (by intro hc; cases hc; exact h rfl)
  | .error _, .ok _ => isFalse (by intro hc; cases hc)
  | .ok _, .error _ => isFalse (by intro hc; cases hc)

/-! ## Codec lemmas -/

/-- Packing then unpacking u16 words is the identity. -/
lemma bytesToWords_wordsToBytes (ws : List Nat) :
    bytesToWords (wordsToBytes ws) = ws := by
  induction ws with
  | nil => rfl
  | cons w rest ih =>
      simp [wordsToBytes, bytesToWords, ih, Nat.mod_add_div]

lemma wordsToBytes_length (ws : List Nat) :
    (wordsToBytes ws).length = 2 * ws.length := by
  induction ws with
  | nil => rfl
  | cons w rest ih => simp [wordsToBytes, ih]; omega

/-- C1, the claim as stated, is false at a well-aligned buffer whose
`channelCount` header word is zero: the ten-word all-zero buffer has even
length, at least 10 words, and a payload length (0) that is a multiple of
the `channelCount` word (0 is the only multiple of 0), yet `decode`
rejects it (the Python `%` raises `ZeroDivisionError`) instead of
yielding a frame. -/
theorem codec_C1_counterexample :
    (List.replicate 20 (0 : Nat)).length % 2 = 0 ∧
    10 ≤ (bytesToWords (List.replicate 20 (0 : Nat))).length ∧
    ((bytesToWords (List.replicate 20 (0 : Nat))).length - 10) %
        (bytesToWords (List.replicate 20 (0 : Nat))).getD 2 0 = 0 ∧
    decode (List.replicate 20 (0 : Nat)) = .error .zeroChannels := by
  decide

/-- C1 (amended): `decode` fails `oddPayload` exactly on odd byte length;
`tooShort` exactly on fewer than 10 words; when the `channelCount` word is
zero the frame is dropped through the caught division-by-zero error; for a
nonzero `channelCount` it fails `channelMisalignment` exactly when the
payload word count is not a multiple of `channelCount`, and otherwise
yields a decoded frame. -/
theorem codec_C1_amended (bs : List Nat) :
    (decode bs = .error .oddPayload ↔ bs.length % 2 ≠ 0) ∧
    (decode bs = .error .tooShort ↔
      bs.length % 2 = 0 ∧ (bytesToWords bs).length < 10) ∧
    (decode bs = .error .zeroChannels ↔
      bs.length % 2 = 0 ∧ 10 ≤ (bytesToWords bs).length ∧
        (bytesToWords bs).getD 2 0 = 0) ∧
    (decode bs = .error .channelMisalignment ↔
      bs.length % 2 = 0 ∧ 10 ≤ (bytesToWords bs).length ∧
        (bytesToWords bs).getD 2 0 ≠ 0 ∧
        ((bytesToWords bs).length - 10) % (bytesToWords bs).getD 2 0 ≠ 0) ∧
    (bs.length % 2 = 0 → 10 ≤ (bytesToWords bs).length →
      (bytesToWords bs).getD 2 0 ≠ 0 →
      ((bytesToWords bs).length - 10) % (bytesToWords bs).getD 2 0 = 0 →
      ∃ f, decode bs = .ok f) := by
  unfold decode decodeWords
  by_cases h2 : bs.length % 2 = 0 <;>
    simp only [h2, ne_eq, not_true_eq_false, not_false_eq_true, if_true,
      if_false, ite_false, ite_true] <;>
    [skip; simp]
  by_cases h10 : (bytesToWords bs).length < 10 <;>
    simp only [h10, if_true, if_false, ite_true, ite_false]
  · simp; omega
  · by_cases hz : (bytesToWords bs).getD 2 0 = 0 <;>
      simp only [hz, if_true, if_false, ite_true, ite_false]
    · simp; omega
    · by_cases hm : ((bytesToWords bs).drop 10).length %
          (bytesToWords bs).getD 2 0 ≠ 0 <;>
        simp_all [List.length_drop]

/-- Witness for `codec_C1_amended`: a concrete 22-byte single-channel
buffer decodes to a frame. -/
theorem codec_C1_amended_witness :
    ∃ f, decode [0, 0, 0, 0, 1, 0, 0, 8, 16, 0, 0, 0, 0, 0, 0, 0, 0, 0, 0, 0, 7, 0]
      = .ok f :=
  (codec_C1_amended
      [0, 0, 0, 0, 1, 0, 0, 8, 16, 0, 0, 0, 0, 0, 0, 0, 0, 0, 0, 0, 7, 0]).2.2.2.2
    (by decide) (by decide) (by decide) (by decide)


/-- C2 (confirmed): for channel counts 1, 4 or 8, a channel-aligned u16
payload, u16 header fields, four reserved words, and a frame index whose
base-65535 split fits in two u16 words, encoding on the publisher's wire
layout and decoding on the ingestion path returns the original frame. -/
theorem codec_C2_roundtrip (f : Frame)
    (hch : f.channelCount = 1 ∨ f.channelCount = 4 ∨ f.channelCount = 8)
    (halign : f.payload.length % f.channelCount = 0)
    (hres : f.reserved.length = 4)
    (hfi : f.frameIndex < 65535 * 65536)
    (hsr : f.samplingRate < 65536) (hsb : f.samplingSizeBits < 65536)
    (hmf : f.messageFrequency < 65536)
    (hresb : ∀ x ∈ f.reserved, x < 65536)
    (hpay : ∀ x ∈ f.payload, x < 65536) :
    encode f = some (wordsToBytes (encodeWords f)) ∧
    decode (wordsToBytes (encodeWords f)) = .ok f := by
  obtain ⟨fi, ch, sr, sb, mf, r, p⟩ := f
  simp only [encodeWords] at *
  have hch0 : ch ≠ 0 := by rcases hch with h | h | h <;> omega
  have hall : (([fi % 65535, fi / 65535, ch, sr, sb, mf] ++ r ++ p).all
      (· < 65536)) = true := by
    rw [List.all_eq_true]
    intro x hx
    rw [decide_eq_true_eq]
    simp only [List.mem_append, List.mem_cons, List.not_mem_nil, or_false] at hx
    rcases hx with ((rfl | rfl | rfl | rfl | rfl | rfl) | hx) | hx
    · have := Nat.mod_lt fi (show 0 < 65535 by norm_num); omega
    · exact Nat.div_lt_of_lt_mul (by omega)
    · omega
    · omega
    · omega
    · omega
    · exact hresb x hx
    · exact hpay x hx
  refine ⟨?_, ?_⟩
  · unfold encode
    simp only [encodeWords]
    rw [if_pos hall]
  · have hlen2 : (wordsToBytes ([fi % 65535, fi / 65535, ch, sr, sb, mf]
        ++ r ++ p)).length % 2 = 0 := by
      rw [wordsToBytes_length]; omega
    unfold decode
    rw [if_neg (by omega), bytesToWords_wordsToBytes]
    have hL : ([fi % 65535, fi / 65535, ch, sr, sb, mf] ++ r ++ p).length
        = 10 + p.length := by simp [hres]; omega
    have hd10 : ([fi % 65535, fi / 65535, ch, sr, sb, mf] ++ r ++ p).drop 10
        = p := List.drop_left' (by simp [hres])
    have hd6 : ([fi % 65535, fi / 65535, ch, sr, sb, mf] ++ r ++ p).drop 6
        = r ++ p := by
      rw [List.append_assoc]
      exact List.drop_left' (by simp)
    have hg2 : ([fi % 65535, fi / 65535, ch, sr, sb, mf] ++ r ++ p).getD 2 0
        = ch := rfl
    have hg0 : ([fi % 65535, fi / 65535, ch, sr, sb, mf] ++ r ++ p).getD 0 0
        = fi % 65535 := rfl
    have hg1 : ([fi % 65535, fi / 65535, ch, sr, sb, mf] ++ r ++ p).getD 1 0
        = fi / 65535 := rfl
    have hg3 : ([fi % 65535, fi / 65535, ch, sr, sb, mf] ++ r ++ p).getD 3 0
        = sr := rfl
    have hg4 : ([fi % 65535, fi / 65535, ch, sr, sb, mf] ++ r ++ p).getD 4 0
        = sb := rfl
    have hg5 : ([fi % 65535, fi / 65535, ch, sr, sb, mf] ++ r ++ p).getD 5 0
        = mf := rfl
    unfold decodeWords
    rw [hg2]
    simp only [hL, hg0, hg1, hg2, hg3, hg4, hg5, hd10, hd6]
    rw [if_neg (by omega), if_neg hch0, if_neg (by simp [halign]),
      List.take_left' hres]
    simp [Nat.mod_add_div' fi 65535]

/-- Witness for `codec_C2_roundtrip`: a concrete 4-channel frame
round-trips. -/
theorem codec_C2_roundtrip_witness :
    encode ⟨70000, 4, 4096, 16, 1024, [0, 0, 0, 0], [1, 2, 3, 4]⟩ =
      some (wordsToBytes (encodeWords ⟨70000, 4, 4096, 16, 1024, [0, 0, 0, 0], [1, 2, 3, 4]⟩)) ∧
    decode (wordsToBytes (encodeWords ⟨70000, 4, 4096, 16, 1024, [0, 0, 0, 0], [1, 2, 3, 4]⟩)) =
      .ok ⟨70000, 4, 4096, 16, 1024, [0, 0, 0, 0], [1, 2, 3, 4]⟩ :=
  codec_C2_roundtrip ⟨70000, 4, 4096, 16, 1024, [0, 0, 0, 0], [1, 2, 3, 4]⟩
    (by decide) (by decide) (by decide) (by decide) (by decide) (by decide)
    (by decide) (by decide) (by decide)

/-! ## Message handling theorems -/

/-- C3, the claim as stated, is false: an 8-byte message on a subscribed
topic fails codec decoding (`tooShort`), yet `on_message` forwards it via
`data_received` and emits no error event — the header checks live in the
time-view consumer, not in `on_message`. -/
theorem mqtt_C3_counterexample :
    decode (List.replicate 8 0) = .error .tooShort ∧
    on_message ⟨true, ["t"]⟩ "t" (List.replicate 8 0) =
      [.dataReceived "t" [0, 0, 0, 0]] := by
  decide

/-- C3 (amended): `on_message` validates only u16 alignment and
non-emptiness.  An odd-length payload is dropped with an error event; an
even nonempty payload whose tag the database accepts is forwarded raw via
`data_received`; a database rejection yields an error event; and message
handling is stateless, so one message's outcome never affects later
messages. -/
theorem mqtt_C3_amended (db : MqttDb) (topic : String) (payload : List Nat)
    (rest : List (String × List Nat)) :
    (payload.length % 2 ≠ 0 → on_message db topic payload = [.errorOccurred]) ∧
    (payload.length % 2 = 0 → payload ≠ [] →
      update_tag_value db topic = true →
      on_message db topic payload = [.dataReceived topic (bytesToWords payload)]) ∧
    (payload.length % 2 = 0 → payload ≠ [] →
      update_tag_value db topic = false →
      on_message db topic payload = [.errorOccurred]) ∧
    processMessages db ((topic, payload) :: rest) =
      on_message db topic payload ++ processMessages db rest := by
  refine ⟨?_, ?_, ?_, rfl⟩
  · intro h
    simp [on_message, h]
  · intro h hne hok
    match payload, hne with
    | [b], _ => simp at h
    | b0 :: b1 :: tl, _ =>
        simp only [List.length_cons] at h
        simp only [on_message, List.length_cons]
        rw [if_neg (by omega)]
        simp [bytesToWords, hok]
  · intro h hne hbad
    match payload, hne with
    | [b], _ => simp at h
    | b0 :: b1 :: tl, _ =>
        simp only [List.length_cons] at h
        simp only [on_message, List.length_cons]
        rw [if_neg (by omega)]
        simp [bytesToWords, hbad]

/-- Witness for `mqtt_C3_amended`: a concrete 2-byte message on a known
tag is forwarded. -/
theorem mqtt_C3_amended_witness :
    on_message ⟨true, ["a"]⟩ "a" [1, 2] = [.dataReceived "a" (bytesToWords [1, 2])] :=
  (mqtt_C3_amended ⟨true, ["a"]⟩ "a" [1, 2] []).2.1 (by decide)
    (by decide) (by decide)

/-! ## Connection lifecycle theorem -/

/-- C9 is violated by the code: start the worker against an unreachable
broker (one failed attempt schedules a `QTimer.singleShot` retry), then
call `stop()`.  `stop()` emits `stopped` and clears state but does not
cancel the pending timer, and `attempt_connection` never checks
`self.running`, so when the timer fires the worker calls
`client.connect` again — a connection attempt after `stop()` with no
intervening `start()` (it even emits `connected`). -/
theorem mqtt_C9_retry_after_stop :
    (workerStop (workerStart false WorkerState.init)).running = false ∧
    (workerStop (workerStart false WorkerState.init)).events = [.stoppedEvent] ∧
    (workerStop (workerStart false WorkerState.init)).connectCalls = 1 ∧
    (workerStop (workerStart false WorkerState.init)).timerPending = true ∧
    (timerFire true (workerStop (workerStart false WorkerState.init))).connectCalls = 2 ∧
    (timerFire true (workerStop (workerStart false WorkerState.init))).events =
      [.stoppedEvent, .connected] := by
  decide

/-! ## Ring buffer theorems -/

lemma drop_append_left {α : Type} (m n : List α) (k : Nat) (h : k ≤ m.length) :
    (m ++ n).drop k = m.drop k ++ n := by
  rw [List.drop_append_eq_append_drop, Nat.sub_eq_zero_of_le h, List.drop_zero]

/-- Folding `deque.append` over a list of new values keeps the last
`cap` elements of old-contents-then-new-values. -/
lemma RingBuffer.foldl_push {α : Type} (cap : Nat) (l xs : List α)
    (hl : l.length ≤ cap) :
    xs.foldl RingBuffer.push ⟨cap, l⟩ =
      ⟨cap, (l ++ xs).drop (l.length + xs.length - cap)⟩ := by
  induction xs generalizing l with
  | nil =>
      simp only [List.foldl_nil, List.append_nil, List.length_nil,
        Nat.add_zero, Nat.sub_eq_zero_of_le hl, List.drop_zero]
  | cons x tl ih =>
      have hd : ((l ++ [x]).drop (l.length + 1 - cap)).length ≤ cap := by
        simp only [List.length_drop, List.length_append, List.length_cons,
          List.length_nil]
        omega
      simp only [List.foldl_cons]
      rw [show RingBuffer.push (⟨cap, l⟩ : RingBuffer α) x
        = ⟨cap, (l ++ [x]).drop (l.length + 1 - cap)⟩ from rfl]
      rw [ih _ hd]
      congr 1
      rw [← drop_append_left (l ++ [x]) tl (l.length + 1 - cap) (by simp),
        List.drop_drop,
        show (l ++ [x]) ++ tl = l ++ x :: tl by simp]
      congr 1
      simp only [List.length_drop, List.length_append, List.length_cons,
        List.length_nil]
      omega

/-- C5 (confirmed): appending `N > C` values to an empty capacity-`C`
ring buffer leaves exactly the last `C` appended values, in append
order. -/
theorem rb_C5_fifo {α : Type} (C : Nat) (xs : List α) (h : C < xs.length) :
    (xs.foldl RingBuffer.push (RingBuffer.empty C)).data =
      xs.drop (xs.length - C) ∧
    (xs.foldl RingBuffer.push (RingBuffer.empty C)).data.length = C := by
  rw [show (RingBuffer.empty C : RingBuffer α) = ⟨C, []⟩ from rfl,
    RingBuffer.foldl_push C [] xs (by simp)]
  constructor
  · simp
  · simp only [List.length_drop, List.nil_append, List.length_nil]
    omega

/-- Witness for `rb_C5_fifo`: five appends into a capacity-2 buffer keep
the last two values. -/
theorem rb_C5_fifo_witness :
    (([10, 20, 30, 40, 50] : List Nat).foldl RingBuffer.push
        (RingBuffer.empty 2)).data = [40, 50] :=
  (rb_C5_fifo 2 [10, 20, 30, 40, 50] (by decide)).1

/-! ## Time view theorems -/

lemma initialize_plot_isSaving (s : TimeViewState) (n : Nat) :
    (initialize_plot s n).isSaving = s.isSaving := by
  unfold initialize_plot; split <;> rfl

lemma initialize_plot_filenameCounter (s : TimeViewState) (n : Nat) :
    (initialize_plot s n).filenameCounter = s.filenameCounter := by
  unfold initialize_plot; split <;> rfl

lemma initialize_plot_frameIndex (s : TimeViewState) (n : Nat) :
    (initialize_plot s n).frameIndex = s.frameIndex := by
  unfold initialize_plot; split <;> rfl

/-- On a frame passing all header checks, `split_and_store_values`
reduces to the buffer-append and persistence stages. -/
lemma split_valid (s : TimeViewState) (db : TvDb) (dbOk : Bool)
    (v : List Nat) (hv : ValidFrameWords v) :
    split_and_store_values s db dbOk v =
      (let nch := v.getD 2 0
       let s1 := if nch ≠ s.numChannels ∨ s.axesInitialized = false
         then initialize_plot s nch else s
       let s2 := { s1 with
         buffers := appendInterleaved s1.buffers nch ((v.drop 10).map (Nat.cast)) }
       if s2.isSaving then
         if dbOk then
           ({ s2 with frameIndex := s2.frameIndex + 1 },
            { records := db.records ++
               [{ filenameSuffix := s2.filenameCounter
                  frameIndex := v.getD 0 0 + v.getD 1 0 * 65535
                  numberOfChannels := nch, message := v.drop 10 }] },
            [.savedFrame])
         else ({ s2 with isSaving := false }, db, [.saveFailed])
       else (s2, db, [])) := by
  obtain ⟨h10, hch, hal⟩ := hv
  have h1 : ¬ v.length < 10 := by omega
  have hal' : ¬ (v.length - 10) % v.getD 2 0 ≠ 0 := by simpa using hal
  simp only [List.getD_eq_getElem?_getD] at hch hal'
  simp [split_and_store_values, h1, hch, hal']

/-- C10 (confirmed): a message with at least 10 words but a zero
`channelCount` header word is dropped through the caught
`ZeroDivisionError`; the feature state, the ring buffers and the
persistence store are untouched and an error is reported. -/
theorem tv_C10_zero_channels (s : TimeViewState) (db : TvDb) (dbOk : Bool)
    (v : List Nat) (h10 : 10 ≤ v.length) (hz : v.getD 2 0 = 0) :
    split_and_store_values s db dbOk v = (s, db, [.errorCaught]) := by
  have h1 : ¬ v.length < 10 := by omega
  simp only [List.getD_eq_getElem?_getD] at hz
  simp [split_and_store_values, h1, hz]

/-- Witness for `tv_C10_zero_channels`: the all-zero ten-word message
leaves a fresh feature state and an empty store unchanged. -/
theorem tv_C10_zero_channels_witness :
    split_and_store_values (initTimeView ⟨[]⟩) ⟨[]⟩ true (List.replicate 10 0)
      = (initTimeView ⟨[]⟩, ⟨[]⟩, [.errorCaught]) :=
  tv_C10_zero_channels (initTimeView ⟨[]⟩) ⟨[]⟩ true (List.replicate 10 0)
    (by decide) (by decide)

/-- C8 (confirmed): while a recording session is active, if the
persistence write for a well-formed frame fails, the session is stopped
(`is_saving` returns to false), the store is unchanged and the failure is
surfaced to the caller. -/
theorem tv_C8_save_failure (s : TimeViewState) (db : TvDb) (v : List Nat)
    (hs : s.isSaving = true) (hv : ValidFrameWords v) :
    (split_and_store_values s db false v).1.isSaving = false ∧
    (split_and_store_values s db false v).2.1 = db ∧
    (split_and_store_values s db false v).2.2 = [.saveFailed] := by
  rw [split_valid s db false v hv]
  by_cases hc : v.getD 2 0 ≠ s.numChannels ∨ s.axesInitialized = false
  all_goals
    simp only [List.getD_eq_getElem?_getD] at hc
    simp [hc, initialize_plot_isSaving, hs]

/-- Witness for `tv_C8_save_failure`: a concrete failed write during an
active session stops it. -/
theorem tv_C8_save_failure_witness :
    (split_and_store_values ⟨1, 4096, 4096, 1, [], true, true, 0, 1, some 0⟩
        ⟨[]⟩ false [0, 0, 1, 4096, 16, 0, 0, 0, 0, 0, 5]).1.isSaving = false ∧
    (split_and_store_values ⟨1, 4096, 4096, 1, [], true, true, 0, 1, some 0⟩
        ⟨[]⟩ false [0, 0, 1, 4096, 16, 0, 0, 0, 0, 0, 5]).2.1 = ⟨[]⟩ ∧
    (split_and_store_values ⟨1, 4096, 4096, 1, [], true, true, 0, 1, some 0⟩
        ⟨[]⟩ false [0, 0, 1, 4096, 16, 0, 0, 0, 0, 0, 5]).2.2 = [.saveFailed] :=
  tv_C8_save_failure ⟨1, 4096, 4096, 1, [], true, true, 0, 1, some 0⟩ ⟨[]⟩
    [0, 0, 1, 4096, 16, 0, 0, 0, 0, 0, 5] (by decide) (by decide)

/-- C6, the claim as stated, is false: with a session already active
(`is_saving = true`, five frames already sequenced), a second
`start_saving` call is not a rejected no-op — it reports a fresh start
and resets the sequence counter `frame_index` from 5 to 0 (only the
filename survives, because `filename_counter` is untouched). -/
theorem tv_C6_counterexample :
    (⟨1, 4096, 4096, 1, [], true, true, 5, 3, some 0⟩ : TimeViewState).isSaving
        = true ∧
    (⟨1, 4096, 4096, 1, [], true, true, 5, 3, some 0⟩ : TimeViewState).frameIndex
        = 5 ∧
    (start_saving ⟨1, 4096, 4096, 1, [], true, true, 5, 3, some 0⟩ true 7).1.frameIndex
        = 0 ∧
    (start_saving ⟨1, 4096, 4096, 1, [], true, true, 5, 3, some 0⟩ true 7).2
        = [.startedSaving] := by
  decide

/-- C6 (amended): a second `start_saving` during an active session keeps
the filename (the counter is untouched) but restarts the session: the
sequence counter is reset to 0, the start time is overwritten, and the
call reports a fresh start rather than a rejection. -/
theorem tv_C6_amended (s : TimeViewState) (now : Nat)
    (_hs : s.isSaving = true) :
    (start_saving s true now).1.filenameCounter = s.filenameCounter ∧
    (start_saving s true now).1.isSaving = true ∧
    (start_saving s true now).1.frameIndex = 0 ∧
    (start_saving s true now).1.startedAt = some now ∧
    (start_saving s true now).2 = [.startedSaving] := by
  simp [start_saving]

/-- Witness for `tv_C6_amended` at a concrete active session. -/
theorem tv_C6_amended_witness :
    (start_saving ⟨1, 4096, 4096, 1, [], true, true, 9, 4, some 1⟩ true 2).1.filenameCounter
      = (⟨1, 4096, 4096, 1, [], true, true, 9, 4, some 1⟩ : TimeViewState).filenameCounter :=
  (tv_C6_amended ⟨1, 4096, 4096, 1, [], true, true, 9, 4, some 1⟩ 2 (by decide)).1

lemma zipWith_push_cap (bufs : List (RingBuffer ℚ)) (blk : List ℚ) (c : Nat)
    (h : ∀ b ∈ bufs, b.cap = c) :
    ∀ b ∈ List.zipWith RingBuffer.push bufs blk, b.cap = c := by
  induction bufs generalizing blk with
  | nil => simp
  | cons b0 tl ih =>
      cases blk with
      | nil => simp
      | cons x xs =>
          intro b hb
          rcases List.mem_cons.mp hb with rfl | hb
          · exact h b0 (List.mem_cons_self ..)
          · exact ih xs (fun b hb => h b (List.mem_cons_of_mem _ hb)) b hb

lemma foldl_blocks_inv (plot : List ℚ) (nch : Nat) (ks : List Nat) (c : Nat)
    (hn : 0 < nch) :
    ∀ bufs : List (RingBuffer ℚ), bufs.length = nch →
      (∀ b ∈ bufs, b.cap = c) →
      (∀ k ∈ ks, (k + 1) * nch ≤ plot.length) →
      ((ks.foldl (fun bs k =>
          List.zipWith RingBuffer.push bs ((plot.drop (k * nch)).take nch))
          bufs).length = nch ∧
       ∀ b ∈ ks.foldl (fun bs k =>
          List.zipWith RingBuffer.push bs ((plot.drop (k * nch)).take nch))
          bufs, b.cap = c) := by
  induction ks with
  | nil => intro bufs hb hcap _; exact ⟨hb, hcap⟩
  | cons k ktl ih =>
      intro bufs hb hcap hk
      simp only [List.foldl_cons]
      have hblk : ((plot.drop (k * nch)).take nch).length = nch := by
        simp only [List.length_take, List.length_drop]
        have h1 := hk k (List.mem_cons_self ..)
        have h2 : (k + 1) * nch = k * nch + nch := by ring
        omega
      refine ih _ ?_ ?_ ?_
      · rw [List.length_zipWith, hb, hblk]; omega
      · exact zipWith_push_cap bufs _ c hcap
      · exact fun j hj => hk j (List.mem_cons_of_mem _ hj)

/-- Appending a channel-aligned payload into `nch` equal-capacity buffers
keeps `nch` buffers of the same capacity. -/
lemma appendInterleaved_caps (bufs : List (RingBuffer ℚ)) (nch : Nat)
    (plot : List ℚ) (c : Nat) (hn : 0 < nch) (hb : bufs.length = nch)
    (hcap : ∀ b ∈ bufs, b.cap = c) :
    (appendInterleaved bufs nch plot).length = nch ∧
    ∀ b ∈ appendInterleaved bufs nch plot, b.cap = c := by
  unfold appendInterleaved
  refine foldl_blocks_inv plot nch _ c hn bufs hb hcap ?_
  intro k hk
  have hkm : k < plot.length / nch := List.mem_range.mp hk
  have h1 : (k + 1) ≤ plot.length / nch := hkm
  calc (k + 1) * nch ≤ (plot.length / nch) * nch :=
        Nat.mul_le_mul_right _ h1
    _ ≤ plot.length := Nat.div_mul_le_self ..

/-- On the first frame for a fresh plot, the buffers are the
de-interleaved payload appended into `channelCount` fresh deques of
capacity `int(data_rate * window_size)`. -/
lemma split_fresh_buffers (s : TimeViewState) (db : TvDb) (dbOk : Bool)
    (v : List Nat) (hax : s.axesInitialized = false) (hv : ValidFrameWords v) :
    (split_and_store_values s db dbOk v).1.buffers =
      appendInterleaved
        (List.replicate (v.getD 2 0)
          (RingBuffer.empty (pyInt (s.dataRate * s.windowSize))))
        (v.getD 2 0) ((v.drop 10).map (Nat.cast)) := by
  rw [split_valid s db dbOk v hv]
  have hc : v.getD 2 0 ≠ s.numChannels ∨ s.axesInitialized = false :=
    Or.inr hax
  have hip : initialize_plot s (v.getD 2 0) =
      { s with numChannels := v.getD 2 0
               bufferSize := pyInt (s.dataRate * s.windowSize)
               buffers := List.replicate (v.getD 2 0)
                 (RingBuffer.empty (pyInt (s.dataRate * s.windowSize)))
               axesInitialized := true } := by
    unfold initialize_plot
    rw [if_neg (by simp [hax])]
  simp only [hc, ite_true, hip]
  split_ifs <;> rfl

/-- C4, the claim as stated, is false: the buffer capacity is computed
from the feature's fixed `data_rate = 4096.0`, not from the frame's
`samplingRate` header word.  A first frame advertising 2048 Hz with a
1-second window gets a channel buffer of capacity 4096, not
2048 × 1. -/
theorem tv_C4_counterexample :
    ((split_and_store_values (initTimeView ⟨[]⟩) ⟨[]⟩ true
        [0, 0, 1, 2048, 16, 0, 0, 0, 0, 0, 7]).1.buffers.map (·.cap)) = [4096] ∧
    ([0, 0, 1, 2048, 16, 0, 0, 0, 0, 0, 7] : List Nat).getD 3 0 = 2048 ∧
    (4096 : Nat) ≠ 2048 * 1 := by
  refine ⟨?_, by decide, by decide⟩
  rw [split_fresh_buffers _ _ _ _ rfl (by decide)]
  have hp : pyInt ((initTimeView ⟨[]⟩).dataRate * (initTimeView ⟨[]⟩).windowSize)
      = 4096 := by
    show pyInt ((4096 : ℚ) * 1) = 4096
    have h1 : ((4096 : ℚ) * 1) = 4096 := by norm_num
    rw [pyInt, h1]
    simp only [Rat.num_ofNat, Rat.den_ofNat]
    decide
  rw [hp]
  decide

/-- C4 (amended): buffers are allocated lazily on the first frame, one
per channel, each with capacity `int(data_rate * window_size)` for the
feature's fixed 4096.0 `data_rate` (the frame's `samplingRate` word is
ignored for sizing); a window change reallocates every buffer to the new
capacity keeping the most recent elements, so going from 1.0 s to 0.5 s
with a full 4096-sample buffer keeps exactly the most recent 2048
samples. -/
theorem tv_C4_amended :
    (∀ (s : TimeViewState) (db : TvDb) (dbOk : Bool) (v : List Nat),
      s.axesInitialized = false → ValidFrameWords v →
      ((split_and_store_values s db dbOk v).1.buffers.length = v.getD 2 0 ∧
       ∀ b ∈ (split_and_store_values s db dbOk v).1.buffers,
         b.cap = pyInt (s.dataRate * s.windowSize))) ∧
    (∀ (s : TimeViewState) (w : ℚ),
      pyInt (s.dataRate * w) ≠ s.bufferSize →
      (adjust_buffer_size (setWindow s w)).buffers =
        s.buffers.map (fun b =>
          RingBuffer.ofList (pyInt (s.dataRate * w)) b.data)) ∧
    (∀ l : List ℚ, l.length = 4096 →
      (adjust_buffer_size (setWindow
          ⟨1, 4096, 4096, 1, [⟨4096, l⟩], true, false, 0, 1, none⟩
          (1 / 2))).buffers = [⟨2048, l.drop 2048⟩] ∧
      (l.drop 2048).length = 2048) := by
  refine ⟨?_, ?_, ?_⟩
  · intro s db dbOk v hax hv
    rw [split_fresh_buffers s db dbOk v hax hv]
    have hch0 : 0 < v.getD 2 0 := Nat.pos_of_ne_zero hv.2.1
    exact appendInterleaved_caps _ _ _ _ hch0 (by simp)
      (fun b hb => by rw [List.eq_of_mem_replicate hb]; rfl)
  · intro s w hne
    simp [adjust_buffer_size, setWindow, hne]
  · intro l hl
    have hp : pyInt (2048 : ℚ) = 2048 := by
      rw [pyInt]
      simp only [Rat.num_ofNat, Rat.den_ofNat]
      decide
    constructor
    · simp only [adjust_buffer_size, setWindow]
      norm_num [hp, RingBuffer.ofList, hl]
    · rw [List.length_drop, hl]

/-- Witness for `tv_C4_amended`: a concrete first 2-channel frame
allocates two buffers. -/
theorem tv_C4_amended_witness :
    (split_and_store_values (initTimeView ⟨[]⟩) ⟨[]⟩ true
        [0, 0, 2, 4096, 16, 0, 0, 0, 0, 0, 1, 2]).1.buffers.length
      = ([0, 0, 2, 4096, 16, 0, 0, 0, 0, 0, 1, 2] : List Nat).getD 2 0 :=
  (tv_C4_amended.1 (initTimeView ⟨[]⟩) ⟨[]⟩ true
      [0, 0, 2, 4096, 16, 0, 0, 0, 0, 0, 1, 2] rfl (by decide)).1

lemma split_saving_step (s : TimeViewState) (db : TvDb) (v : List Nat)
    (hs : s.isSaving = true) (hv : ValidFrameWords v) :
    (split_and_store_values s db true v).1.isSaving = true ∧
    (split_and_store_values s db true v).1.filenameCounter = s.filenameCounter ∧
    (split_and_store_values s db true v).2.1.records =
      db.records ++ [{ filenameSuffix := s.filenameCounter
                       frameIndex := v.getD 0 0 + v.getD 1 0 * 65535
                       numberOfChannels := v.getD 2 0
                       message := v.drop 10 }] := by
  rw [split_valid s db true v hv]
  by_cases hc : v.getD 2 0 ≠ s.numChannels ∨ s.axesInitialized = false
  all_goals
    simp only [List.getD_eq_getElem?_getD] at hc
    simp [hc, initialize_plot_isSaving, initialize_plot_filenameCounter, hs]

lemma saveFrames_inv (frames : List (List Nat)) :
    ∀ (s : TimeViewState) (db : TvDb), s.isSaving = true →
      (∀ v ∈ frames, ValidFrameWords v) →
      ((saveFrames frames (s, db)).1.isSaving = true ∧
       (saveFrames frames (s, db)).1.filenameCounter = s.filenameCounter ∧
       (saveFrames frames (s, db)).2.filenameSuffixes =
         db.filenameSuffixes ++ List.replicate frames.length s.filenameCounter) := by
  induction frames with
  | nil => intro s db hs _; exact ⟨hs, rfl, by simp [saveFrames]⟩
  | cons v tl ih =>
      intro s db hs hval
      obtain ⟨h1, h2, h3⟩ :=
        split_saving_step s db v hs (hval v (List.mem_cons_self ..))
      have hrec : saveFrames (v :: tl) (s, db) =
          saveFrames tl ((split_and_store_values s db true v).1,
            (split_and_store_values s db true v).2.1) := by
        simp [saveFrames]
      rw [hrec]
      obtain ⟨g1, g2, g3⟩ :=
        ih _ _ h1 (fun u hu => hval u (List.mem_cons_of_mem _ hu))
      refine ⟨g1, by rw [g2, h2], ?_⟩
      have hsuf : (split_and_store_values s db true v).2.1.filenameSuffixes
          = db.filenameSuffixes ++ [s.filenameCounter] := by
        unfold TvDb.filenameSuffixes
        rw [h3, List.map_append]
        rfl
      rw [g3, hsuf, h2, List.append_assoc, List.singleton_append,
        List.length_cons, ← List.replicate_succ]

lemma foldl_max_replicate (n a c : Nat) (hn : 0 < n) :
    (List.replicate n c).foldl max a = max a c := by
  induction n generalizing a with
  | zero => omega
  | succ m ih =>
      rw [List.replicate_succ, List.foldl_cons]
      rcases Nat.eq_zero_or_pos m with h | h
      · subst h; simp
      · rw [ih _ h]; omega

/-- C7, the claim as stated, is false: a recording session that persists
no frames still increments the in-memory counter at `stop_saving`, so
the next `start_saving` uses `data2` although the repository is empty and
the maximum existing suffix plus one is 1. -/
theorem tv_C7_counterexample :
    (runSession (initTimeView ⟨[]⟩) ⟨[]⟩ []).1.filenameCounter = 2 ∧
    get_next_filename_counter (runSession (initTimeView ⟨[]⟩) ⟨[]⟩ []).2 = 1 ∧
    (2 : Nat) ≠ 1 := by
  decide

/-- C7 (amended): the filename counter is recomputed from the
repository's filenames (max numeric suffix plus one) at construction, and
thereafter incremented in memory at `stop_saving`; whenever every
completed session persisted at least one frame, the counter at the next
`start_saving` again equals the repository's max suffix plus one, so
restarts cannot collide with persisted filenames. -/
theorem tv_C7_amended :
    (∀ db : TvDb,
      (initTimeView db).filenameCounter = get_next_filename_counter db) ∧
    (∀ (s : TimeViewState) (db : TvDb) (frames : List (List Nat)),
      s.filenameCounter = get_next_filename_counter db →
      frames ≠ [] → (∀ v ∈ frames, ValidFrameWords v) →
      (runSession s db frames).1.filenameCounter =
        get_next_filename_counter (runSession s db frames).2) := by
  refine ⟨fun db => rfl, ?_⟩
  intro s db frames hinv hne hval
  unfold runSession
  have hss : (start_saving s true 0).1.isSaving = true := by simp [start_saving]
  have hsc : (start_saving s true 0).1.filenameCounter = s.filenameCounter := by
    simp [start_saving]
  obtain ⟨g1, g2, g3⟩ := saveFrames_inv frames _ db hss hval
  have hstop : (stop_saving
        (saveFrames frames ((start_saving s true 0).1, db)).1).1.filenameCounter
      = (saveFrames frames ((start_saving s true 0).1, db)).1.filenameCounter
        + 1 := by
    unfold stop_saving
    rw [g1]
    rfl
  rw [hstop, g2, hsc]
  unfold get_next_filename_counter
  rw [g3, hsc, List.foldl_append,
    foldl_max_replicate _ _ _ (List.length_pos.mpr hne)]
  have hfv : s.filenameCounter = db.filenameSuffixes.foldl max 0 + 1 := hinv
  omega

/-- Witness for `tv_C7_amended`: one session persisting one frame keeps
the counter aligned with the repository. -/
theorem tv_C7_amended_witness :
    (runSession (initTimeView ⟨[]⟩) ⟨[]⟩
        [[0, 0, 1, 4096, 16, 0, 0, 0, 0, 0, 5]]).1.filenameCounter
      = get_next_filename_counter
          (runSession (initTimeView ⟨[]⟩) ⟨[]⟩
            [[0, 0, 1, 4096, 16, 0, 0, 0, 0, 0, 5]]).2 :=
  tv_C7_amended.2 (initTimeView ⟨[]⟩) ⟨[]⟩
    [[0, 0, 1, 4096, 16, 0, 0, 0, 0, 0, 5]] rfl (by decide) (by decide)
